import Mathlib

set_option maxHeartbeats 1000000

/- Shallow embedding of hanzha2024/Vin_Decoder_For_CarMind
   (src/VinApi_Query.py and src/Vin_Decoder_QueryApi_Test.py).

   Modelling conventions:
   * Python strings are modelled as Lean `String`s and manipulated through
     their character lists; the character classes of the source's regexes
     are modelled over ASCII (the data handled by the program is ASCII).
   * Python floats are modelled as exact rationals (`Rat`); Python's
     `round` (banker's rounding) is modelled exactly on rationals.
   * The external HTTP service is modelled as an explicit list of
     per-attempt responses consumed by the retry loop.
   * Python dictionaries with a fixed key set are modelled as structures;
     a key that may be absent becomes an `Option` field.  Python `None`
     is `none`; Python truthiness of strings/floats is modelled explicitly.
-/

/-- ASCII model of the regex class backslash-s (Python whitespace), also
used for `str.strip()`. -/
def isSpaceChar (c : Char) : Bool :=
  c == ' ' || c == '\t' || c == '\n' || c == '\r' || c == '\x0b' || c == '\x0c'

/-- ASCII model of the regex class backslash-w (word characters). -/
def isWordChar (c : Char) : Bool :=
  c.isAlphanum || c == '_'

/-- The characters kept by `normalize_text`'s first substitution:
`re.sub(r'[^\w\s.\-\/;]', '', text)` deletes everything outside this class. -/
def keepChar (c : Char) : Bool :=
  isWordChar c || isSpaceChar c || c == '.' || c == '-' || c == '/' || c == ';'

/-- The 26 ASCII uppercase/lowercase letter pairs. -/
def lowerPairs : List (Char × Char) :=
  [('A', 'a'), ('B', 'b'), ('C', 'c'), ('D', 'd'), ('E', 'e'), ('F', 'f'),
   ('G', 'g'), ('H', 'h'), ('J', 'j'), ('I', 'i'), ('K', 'k'), ('L', 'l'),
   ('M', 'm'), ('N', 'n'), ('O', 'o'), ('P', 'p'), ('Q', 'q'), ('R', 'r'),
   ('S', 's'), ('T', 't'), ('U', 'u'), ('V', 'v'), ('W', 'w'), ('X', 'x'),
   ('Y', 'y'), ('Z', 'z')]

/-- ASCII model of Python `str.lower()` on one character. -/
def pyLowerChar (c : Char) : Char :=
  ((lowerPairs.find? (fun p => p.1 == c)).map (fun p => p.2)).getD c

/-- ASCII model of Python `str.upper()` on one character. -/
def pyUpperChar (c : Char) : Char :=
  ((lowerPairs.find? (fun p => p.2 == c)).map (fun p => p.1)).getD c

/-- Last element of a character list, `none` on the empty list. -/
def lastCharD : List Char → Option Char
  | [] => none
  | [c] => some c
  | _ :: c :: rest => lastCharD (c :: rest)

/-- Drop trailing whitespace (the right half of Python `str.strip()`). -/
def dropTrailingWS : List Char → List Char
  | [] => []
  | c :: rest =>
    let r := dropTrailingWS rest
    if r.isEmpty && isSpaceChar c then [] else c :: r

/-- Python `str.strip()` on a character list: drop leading and trailing
whitespace. -/
def stripWS (l : List Char) : List Char :=
  dropTrailingWS (l.dropWhile isSpaceChar)

/-- One pass of `re.sub(r'\s+', ' ', s)`: every maximal run of whitespace
becomes a single space.  The flag records whether the previously consumed
character belonged to a whitespace run that has already emitted its space. -/
def collapseWSAux : Bool → List Char → List Char
  | _, [] => []
  | prevSpace, c :: rest =>
    if isSpaceChar c then
      if prevSpace then collapseWSAux true rest
      else ' ' :: collapseWSAux true rest
    else c :: collapseWSAux false rest

def collapseWS (l : List Char) : List Char :=
  collapseWSAux false l

/-- Python `str.strip()`. -/
def pyStrip (s : String) : String :=
  String.mk (stripWS s.data)

/-- Python `str.lower()` (ASCII). -/
def pyLower (s : String) : String :=
  String.mk (s.data.map pyLowerChar)

/-- Python `str.upper()` (ASCII). -/
def pyUpper (s : String) : String :=
  String.mk (s.data.map pyUpperChar)

/-- `normalize_text` from src/Vin_Decoder_QueryApi_Test.py:
`None` becomes `""`; otherwise delete the characters outside the kept
class, collapse whitespace runs to one space, strip, and lowercase. -/
def normalize_text (t : Option String) : String :=
  match t with
  | none => ""
  | some s => String.mk ((stripWS (collapseWS (s.data.filter keepChar))).map pyLowerChar)

/-- `needle` is a prefix of `hay` (Python `str.startswith`, used to build
the substring test). -/
def isPrefixB : List Char → List Char → Bool
  | [], _ => true
  | _ :: _, [] => false
  | a :: as, b :: bs => a == b && isPrefixB as bs

def subAux (n : List Char) : List Char → Bool
  | [] => isPrefixB n []
  | c :: rest => isPrefixB n (c :: rest) || subAux n rest

/-- Python `needle in hay` on strings (substring containment; the empty
needle is contained in everything). -/
def containsSub (needle hay : String) : Bool :=
  subAux needle.data hay.data

/-- `validate_vin` from src/VinApi_Query.py: length must be 17 and no
character may uppercase to I, O or Q; the first offending character (in
scan order) is reported. -/
def isIOQ (c : Char) : Bool :=
  pyUpperChar c == 'I' || pyUpperChar c == 'O' || pyUpperChar c == 'Q'

def lengthMsg : String := "VIN must be 17 characters long"

def invalidCharMsg (c : Char) : String :=
  "VIN contains invalid character \x27" ++ String.singleton c ++ "\x27 (I/O/Q are not allowed)"

def validMsg : String := "VIN format is valid"

def validate_vin (vin : String) : Bool × String :=
  if vin.length ≠ 17 then (false, lengthMsg)
  else
    match vin.data.find? isIOQ with
    | some c => (false, invalidCharMsg c)
    | none => (true, validMsg)

/- ------------------------------------------------------------------ -/
/- Rational models of Python numeric operations                        -/
/- ------------------------------------------------------------------ -/

/-- Python `round` to an integer: banker's rounding (half to even),
modelled exactly on rationals. -/
def bankersRound (t : Rat) : Int :=
  let f := Rat.floor t
  let r := t - (f : Rat)
  if r < 1 / 2 then f
  else if 1 / 2 < r then f + 1
  else if f % 2 = 0 then f else f + 1

/-- Python `round(x, 1)`. -/
def pyRound1 (q : Rat) : Rat :=
  (bankersRound (q * 10) : Rat) / 10

/-- Python `round(x, 2)`. -/
def pyRound2 (q : Rat) : Rat :=
  (bankersRound (q * 100) : Rat) / 100

/-- Decimal rendering of a rational that is a multiple of 1/10, matching
Python `str` on a float rounded to one decimal (e.g. `2.0`, `12.3`). -/
def showTenths (q : Rat) : String :=
  let n := Rat.floor (q * 10)
  let sgn := if n < 0 then "-" else ""
  let m := n.natAbs
  sgn ++ toString (m / 10) ++ "." ++ toString (m % 10)

def digitsToNat (l : List Char) : Nat :=
  l.foldl (fun n c => n * 10 + (c.toNat - '0'.toNat)) 0

/-- Exponent suffix of a float literal: sign and a nonempty digit run that
must consume the rest of the input. -/
def parseExponent : List Char → Option Int
  | l =>
    let (sgn, l1) : Int × List Char :=
      match l with
      | '-' :: t => (-1, t)
      | '+' :: t => (1, t)
      | _ => (1, l)
    let ds := l1.takeWhile Char.isDigit
    if ds.isEmpty || !(l1.drop ds.length).isEmpty then none
    else some (sgn * (digitsToNat ds : Int))

/-- Model of Python `float(s)` on decimal literals: optional surrounding
whitespace, optional sign, digits with an optional fractional part, and an
optional exponent.  (`inf`, `nan` and underscore separators, which never
occur in this program's data, are not modelled and yield `none`.) -/
def parseFloatQ (s : String) : Option Rat :=
  let l := stripWS s.data
  let (sgn, l1) : Rat × List Char :=
    match l with
    | '-' :: t => (-1, t)
    | '+' :: t => (1, t)
    | _ => (1, l)
  let ip := l1.takeWhile Char.isDigit
  let l2 := l1.drop ip.length
  let (fp, l3) : List Char × List Char :=
    match l2 with
    | '.' :: t => (t.takeWhile Char.isDigit, t.drop (t.takeWhile Char.isDigit).length)
    | _ => ([], l2)
  if ip.isEmpty && fp.isEmpty then none
  else
    let mant : Rat := (digitsToNat ip : Rat) + (digitsToNat fp : Rat) / (10 : Rat) ^ fp.length
    match l3 with
    | [] => some (sgn * mant)
    | 'e' :: t =>
      match parseExponent t with
      | some e => some (sgn * mant * (10 : Rat) ^ e)
      | none => none
    | 'E' :: t =>
      match parseExponent t with
      | some e => some (sgn * mant * (10 : Rat) ^ e)
      | none => none
    | _ => none

/- ------------------------------------------------------------------ -/
/- Structural (hard) decoder, src/VinApi_Query.py                      -/
/- ------------------------------------------------------------------ -/

/-- `wmi_mapping` of `hard_decode_vin` in src/VinApi_Query.py. -/
def wmi_mapping : List (String × String) :=
  [("1HG", "Honda"), ("1F", "Ford"), ("1G", "Chevrolet"), ("5YJ", "Tesla"),
   ("JM", "Toyota"), ("WAU", "Audi"), ("WBA", "BMW"), ("WVW", "Volkswagen"),
   ("SAL", "Land Rover"), ("1GY", "Cadillac"), ("KL4", "Buick"), ("5T", "Toyota"),
   ("3TY", "Toyota"), ("JT", "Toyota"), ("4T", "Toyota"), ("2HG", "Honda"),
   ("JHM", "Honda"), ("5F", "Honda"), ("3HG", "Honda"), ("1FT", "Ford"),
   ("1FM", "Ford"), ("1FA", "Ford"), ("WA1", "Audi"), ("WBY", "BMW"),
   ("5UX", "BMW"), ("7SA", "Tesla"), ("JM3", "Mazda"), ("1V2", "Volkswagen"),
   ("3VW", "Volkswagen")]

/-- `year_mapping` of `hard_decode_vin` (the source stores ints and
converts them to strings before use; the table is given as strings). -/
def year_mapping : List (Char × String) :=
  [('A', "2010"), ('B', "2011"), ('C', "2012"), ('D', "2013"), ('E', "2014"),
   ('F', "2015"), ('G', "2016"), ('H', "2017"), ('J', "2018"), ('K', "2019"),
   ('L', "2020"), ('M', "2021"), ('N', "2022"), ('P', "2023"), ('R', "2024"),
   ('S', "2025"), ('T', "2026"), ('V', "2027"), ('W', "2028"), ('X', "2029"),
   ('Y', "2030"), ('1', "2001"), ('2', "2002"), ('3', "2003"), ('4', "2004"),
   ('5', "2005"), ('6', "2006"), ('7', "2007"), ('8', "2008"), ('9', "2009")]

/-- Python `dict.get` over an association list with string keys. -/
def lookupStr (tbl : List (String × String)) (k : String) : Option String :=
  (tbl.find? (fun p => p.1 == k)).map (fun p => p.2)

/-- Python `dict.get` over an association list with character keys. -/
def lookupChar (tbl : List (Char × String)) (k : Char) : Option String :=
  (tbl.find? (fun p => p.1 == k)).map (fun p => p.2)

def wmiUnrecognized : String := "Hard decode unrecognized (WMI not in mapping)"

def yearUnrecognized : String := "Hard decode unrecognized (Year code not in mapping)"

structure HardDecodeResult where
  manufacturer : String
  year : String
  decode_status : String
  deriving DecidableEq, Repr

/-- `hard_decode_vin` from src/VinApi_Query.py: the WMI is `vin[:3].upper()`
and the year code is `vin[9].upper()` (callers validate the 17-character
format first; out-of-range indexing is modelled with a default character). -/
def hard_decode_vin (vin : String) : HardDecodeResult :=
  let wmi := pyUpper (String.mk (vin.data.take 3))
  let year_code := pyUpperChar (vin.data.getD 9 ' ')
  let manufacturer := (lookupStr wmi_mapping wmi).getD wmiUnrecognized
  let year := (lookupChar year_mapping year_code).getD yearUnrecognized
  let decode_status :=
    if manufacturer ≠ wmiUnrecognized ∧ year ≠ yearUnrecognized then "success"
    else "partial_success"
  ⟨manufacturer, year, decode_status⟩

/- ------------------------------------------------------------------ -/
/- Remote resolution pipeline, src/VinApi_Query.py                     -/
/- ------------------------------------------------------------------ -/

/-- One `{Variable, Value}` object of the service's `Results` array
(`Value` may be JSON null). -/
structure ApiItem where
  varName : String
  value : Option String
  deriving DecidableEq, Repr

/-- Outcome of one HTTP attempt as seen by the retry loop of
`decode_vin_simplified`: a timeout, an HTTP-level error (4xx/5xx raised by
`raise_for_status`), any other exception, or a JSON body whose `Results`
array is given (an absent or null `Results` is modelled as `ok []`, which
the source treats identically via falsiness). -/
inductive ApiAttempt where
  | timeout : ApiAttempt
  | httpError : String → ApiAttempt
  | exnOther : String → ApiAttempt
  | ok : List ApiItem → ApiAttempt
  deriving DecidableEq, Repr

/-- The `vehicle_info` dictionary built by `decode_vin_simplified`. -/
structure VehicleInfo where
  vin : String
  manufacturer : String
  year : String
  model : String
  engine : String
  transmission : String
  dataSource : String
  deriving DecidableEq, Repr

/-- The `api_raw_engine` dictionary collected while scanning `Results`
(`None` values were already replaced by the string `"N/A"`; an absent key
is `none`). -/
structure RawApiEngine where
  dispL : Option String
  dispCC : Option String
  fuel : Option String
  deriving DecidableEq, Repr

/-- `extract_standardized_engine` from src/VinApi_Query.py. -/
def extract_standardized_engine (raw : RawApiEngine) : String :=
  let d : String :=
    match raw.dispL with
    | some s =>
      match parseFloatQ s with
      | some q => showTenths (pyRound1 q) ++ "L"
      | none => s
    | none =>
      match raw.dispCC with
      | some s =>
        match parseFloatQ s with
        | some q => showTenths (pyRound1 (q / 1000)) ++ "L"
        | none => s ++ "CC"
      | none => "N/A"
  let rawFuel := raw.fuel.getD "N/A"
  let f : String :=
    if pyStrip rawFuel == "" then "N/A"
    else
      let fl := pyLower (pyStrip rawFuel)
      if containsSub "gas" fl || containsSub "petrol" fl
          || containsSub "regular unleaded" fl || containsSub "premium unleaded" fl then
        "Gasoline"
      else if containsSub "diesel" fl then "Diesel"
      else if containsSub "electric" fl then "Electric"
      else if containsSub "hybrid" fl then "Hybrid"
      else pyStrip rawFuel
  "Displacement: " ++ d ++ "; Fuel Type: " ++ f

/-- ASCII model of Python `str.title()`: the first letter of every run of
letters is uppercased, the rest lowercased.  The flag records whether the
previous character was a letter. -/
def pyTitleAux : Bool → List Char → List Char
  | _, [] => []
  | prev, c :: rest =>
    if c.isAlpha then
      (if prev then pyLowerChar c else pyUpperChar c) :: pyTitleAux true rest
    else c :: pyTitleAux false rest

def pyTitle (s : String) : String :=
  String.mk (pyTitleAux false s.data)

/-- The transmission simplification of `decode_vin_simplified` (CVT before
Automatic before Manual/Standard, case-sensitive substring checks; a value
matching none of them is left unchanged). -/
def stdTransmission (t : String) : String :=
  if containsSub "CVT" t then "CVT"
  else if containsSub "Automatic" t then "Automatic"
  else if containsSub "Manual" t || containsSub "Standard" t then "Manual"
  else t

/-- One step of the `for item in api_data["Results"]` scan of
`decode_vin_simplified`: `var_value` is `Value` with null replaced by
`"N/A"`, and the non-engine fields store its stripped form (or `"N/A"`
when the stripped form is empty). -/
def scanItem (acc : VehicleInfo × RawApiEngine) (item : ApiItem) : VehicleInfo × RawApiEngine :=
  let v := item.value.getD "N/A"
  let vs := pyStrip v
  let field := if vs == "" then "N/A" else vs
  if item.varName == "Make" then ({ acc.1 with manufacturer := field }, acc.2)
  else if item.varName == "Model Year" then ({ acc.1 with year := field }, acc.2)
  else if item.varName == "Model" then ({ acc.1 with model := field }, acc.2)
  else if item.varName == "Transmission Style" || item.varName == "Transmission" then
    ({ acc.1 with transmission := field }, acc.2)
  else if item.varName == "Displacement (L)" then (acc.1, { acc.2 with dispL := some v })
  else if item.varName == "Displacement (CC)" then (acc.1, { acc.2 with dispCC := some v })
  else if item.varName == "Fuel Type - Primary" then (acc.1, { acc.2 with fuel := some v })
  else acc

/-- The body run on a non-empty `Results` array: field mapping, engine
standardization, manufacturer title-casing, transmission collapsing, and
the per-field hard-decode fallback for Manufacturer and Year. -/
def parseResults (vin : String) (results : List ApiItem) : VehicleInfo :=
  let init : VehicleInfo :=
    ⟨pyUpper vin, "N/A", "N/A", "N/A", "N/A", "N/A", "API"⟩
  let sr := results.foldl scanItem (init, ⟨none, none, none⟩)
  let p := sr.1
  let p := { p with engine := extract_standardized_engine sr.2 }
  let p :=
    if p.manufacturer ≠ "N/A" then { p with manufacturer := pyTitle p.manufacturer } else p
  let p := { p with transmission := stdTransmission p.transmission }
  let hd := hard_decode_vin vin
  let p :=
    if p.manufacturer == "N/A" then
      { p with manufacturer := hd.manufacturer,
               dataSource := "API + Hard Decode (Manufacturer Fallback)" }
    else p
  let p :=
    if p.year == "N/A" then
      { p with year := hd.year, dataSource := "API + Hard Decode (Year Fallback)" }
    else p
  p

inductive LoopOutcome where
  | parsed : VehicleInfo → LoopOutcome
  | failed : String → LoopOutcome
  deriving DecidableEq, Repr

def timeoutErrMsg : String :=
  "API request timed out (2 retries exhausted); falling back to hard decode"

def emptyErrMsg : String :=
  "API returned empty data; falling back to hard decode"

def httpErrMsg (msg : String) : String :=
  "API HTTP Error: " ++ msg.take 50 ++ "; falling back to hard decode"

def otherErrMsg (msg : String) : String :=
  "API parsing error: " ++ msg.take 50 ++ "; falling back to hard decode"

/-- The retry loop `for attempt in range(max_retries + 1)` of
`decode_vin_simplified` with `max_retries = 2`: a timeout and an empty
`Results` array are retried while `attempt < 2`; an HTTP error and any
other exception break out immediately.  `responses` supplies the outcome
of each attempt in order (an exhausted list, which a run never reaches
when enough responses are supplied, ends the loop with no API data). -/
def processAttempts (vin : String) : List ApiAttempt → Nat → LoopOutcome
  | [], _ => LoopOutcome.failed ""
  | ApiAttempt.timeout :: rest, attempt =>
    if attempt < 2 then processAttempts vin rest (attempt + 1)
    else LoopOutcome.failed timeoutErrMsg
  | ApiAttempt.httpError msg :: _, _ => LoopOutcome.failed (httpErrMsg msg)
  | ApiAttempt.exnOther msg :: _, _ => LoopOutcome.failed (otherErrMsg msg)
  | ApiAttempt.ok results :: rest, attempt =>
    if results.isEmpty then
      if attempt < 2 then processAttempts vin rest (attempt + 1)
      else LoopOutcome.failed emptyErrMsg
    else LoopOutcome.parsed (parseResults vin results)

/-- The record returned by `decode_vin_simplified`; `vehicleInfo = none`
models the empty `vehicle_info` dictionary returned on a format error. -/
structure DecodeOutcome where
  success : Bool
  vehicleInfo : Option VehicleInfo
  error : String
  deriving DecidableEq, Repr

/-- `decode_vin_simplified` from src/VinApi_Query.py, with the network
abstracted as the list of per-attempt outcomes. -/
def decode_vin_simplified (vin : String) (responses : List ApiAttempt) : DecodeOutcome :=
  let v := validate_vin vin
  if v.1 = false then ⟨false, none, v.2⟩
  else
    match processAttempts vin responses 0 with
    | LoopOutcome.parsed info => ⟨true, some info, ""⟩
    | LoopOutcome.failed err =>
      let hd := hard_decode_vin vin
      ⟨hd.decode_status == "success",
       some ⟨pyUpper vin, hd.manufacturer, hd.year,
             "API parsing failed, no data", "API parsing failed, no data",
             "API parsing failed, no data", "Hard Decode (API Unavailable)"⟩,
       err⟩

/- ------------------------------------------------------------------ -/
/- Comparison engine, src/Vin_Decoder_QueryApi_Test.py                 -/
/- ------------------------------------------------------------------ -/

/-- Match of the regex `(\d+\.?\d*)\s*(l|t)` anchored at the head of the
list, returning group 1 (the scanned text is already normalized, hence
lowercase). -/
def matchP1At (l : List Char) : Option String :=
  let ds := l.takeWhile Char.isDigit
  if ds.isEmpty then none
  else
    let r1 := l.drop ds.length
    let (dot, r2) : List Char × List Char :=
      match r1 with
      | '.' :: t => (['.'], t)
      | _ => ([], r1)
    let ds2 := r2.takeWhile Char.isDigit
    let r3 := r2.drop ds2.length
    let r4 := r3.dropWhile isSpaceChar
    match r4 with
    | c :: _ => if c == 'l' || c == 't' then some (String.mk (ds ++ dot ++ ds2)) else none
    | [] => none

/-- Match of `(\d+)\s*(cc|cubic centimeter)` anchored at the head. -/
def matchP2At (l : List Char) : Option String :=
  let ds := l.takeWhile Char.isDigit
  if ds.isEmpty then none
  else
    let r := (l.drop ds.length).dropWhile isSpaceChar
    if isPrefixB "cc".data r || isPrefixB "cubic centimeter".data r then
      some (String.mk ds)
    else none

/-- Match of `(\d+\.?\d*)\s*liter` anchored at the head. -/
def matchP3At (l : List Char) : Option String :=
  let ds := l.takeWhile Char.isDigit
  if ds.isEmpty then none
  else
    let r1 := l.drop ds.length
    let (dot, r2) : List Char × List Char :=
      match r1 with
      | '.' :: t => (['.'], t)
      | _ => ([], r1)
    let ds2 := r2.takeWhile Char.isDigit
    let r3 := r2.drop ds2.length
    let r4 := r3.dropWhile isSpaceChar
    if isPrefixB "liter".data r4 then some (String.mk (ds ++ dot ++ ds2)) else none

/-- `re.search`: try the anchored matcher at every position, leftmost
match first. -/
def searchSub (m : List Char → Option String) : List Char → Option String
  | [] => m []
  | l@(_ :: rest) =>
    match m l with
    | some g => some g
    | none => searchSub m rest

/-- `float` applied to a captured group of the displacement patterns
(digits with an optional fractional part; the source's
`.replace(',', '')` is a no-op on such groups). -/
def parseDecimalQ (s : String) : Rat :=
  let ip := s.data.takeWhile Char.isDigit
  let rest := s.data.drop ip.length
  let fp :=
    match rest with
    | '.' :: t => t.takeWhile Char.isDigit
    | _ => []
  (digitsToNat ip : Rat) + (digitsToNat fp : Rat) / (10 : Rat) ^ fp.length

/-- The `displacement_patterns` loop of `extract_engine_features`: the
first pattern with a match wins, cc values are divided by 1000, the result
is rounded to one decimal. -/
def extractDisplacementFromText (text : String) : Option Rat :=
  match searchSub matchP1At text.data with
  | some g => some (pyRound1 (parseDecimalQ g))
  | none =>
    match searchSub matchP2At text.data with
    | some g => some (pyRound1 (parseDecimalQ g / 1000))
    | none =>
      match searchSub matchP3At text.data with
      | some g => some (pyRound1 (parseDecimalQ g))
      | none => none

/-- The `fuel_mapping` keyword scan of `extract_engine_features`
(dict order: gasoline, diesel, hybrid, electric). -/
def extractFuelFromText (text : String) : Option String :=
  if containsSub "gas" text || containsSub "gasoline" text || containsSub "petrol" text then
    some "gasoline"
  else if containsSub "diesel" text || containsSub "dsl" text then some "diesel"
  else if containsSub "hybrid" text then some "hybrid"
  else if containsSub "electric" text || containsSub "ev" text then some "electric"
  else none

/-- The `raw_engine_data` dictionary built by `map_api_fields`: the
displacement entries hold the floats parsed by `decode_vin` (or None) and
`standardized_fuel` the keyword-classified fuel string (`none` models an
absent key, read back with default `""`). -/
structure RawEngineData where
  raw_displacement_l : Option Rat
  raw_displacement_cc : Option Rat
  standardized_fuel : Option String
  deriving DecidableEq, Repr

structure EngineFeatures where
  displacement : Option Rat
  displacement_unit : String
  fuel_type : Option String
  raw_text : String
  deriving DecidableEq, Repr

/-- `extract_engine_features` from src/Vin_Decoder_QueryApi_Test.py: when
a raw numeric source dictionary is supplied it is authoritative, otherwise
displacement and fuel are recovered from the normalized text. -/
def extract_engine_features (engine_text : String) (raw : Option RawEngineData) : EngineFeatures :=
  let rt := normalize_text (some engine_text)
  match raw with
  | some r =>
    let d : Option Rat :=
      match r.raw_displacement_l with
      | some l => some (pyRound1 l)
      | none =>
        match r.raw_displacement_cc with
        | some cc => some (pyRound1 (cc / 1000))
        | none => none
    ⟨d, "L", some (normalize_text (some (r.standardized_fuel.getD ""))), rt⟩
  | none => ⟨extractDisplacementFromText rt, "L", extractFuelFromText rt, rt⟩

/-- Python truthiness of an optional string (None and `""` are falsy). -/
def optStrTruthy : Option String → Bool
  | none => false
  | some s => !(s == "")

/-- Python truthiness of an optional float (None and `0.0` are falsy). -/
def optQTruthy : Option Rat → Bool
  | none => false
  | some q => !(q == 0)

/-- `local_feat['fuel_type'] or '无'` (falsy values display as 无). -/
def fuelDisplay (f : Option String) : String :=
  match f with
  | some s => if s == "" then "无" else s
  | none => "无"

/-- The displacement display strings of `match_details`. -/
def dispDisplay (d : Option Rat) : String :=
  match d with
  | some q => showTenths q ++ "L"
  | none => "无"

def dispMismatchReason (ld ad err : String) : String :=
  "排量不匹配（本地：" ++ ld ++ "，API：" ++ ad ++ "，误差" ++ err ++ "，允许±0.2L）"

def dispIncompleteReason (ld ad : String) : String :=
  "排量信息不完整（本地：" ++ ld ++ "，API：" ++ ad ++ "）"

def fuelMismatchReason (lf af : String) : String :=
  "燃料类型不匹配（本地：" ++ lf ++ "，API：" ++ af ++ "）"

def fuelIncompleteReason (lf af : String) : String :=
  "燃料类型信息不完整（本地：" ++ lf ++ "，API：" ++ af ++ "）"

def hybridReason (lf af : String) : String :=
  "混动车型（文本含混动关键词），放开燃料类型匹配（本地：" ++ lf ++ "，API：" ++ af ++ "）"

def successReason (lf ld ad : String) : String :=
  "匹配成功（燃料类型：" ++ lf ++ "，排量：" ++ ld ++ " ≈ " ++ ad ++ "）"

structure EngineMatchDetails where
  fuel_type_match : Bool
  displacement_match : Bool
  local_fuel : String
  api_fuel : String
  local_displacement : String
  api_displacement : String
  displacement_error : String
  reason : String
  deriving DecidableEq, Repr

structure DispVerdict where
  ok : Bool
  errDisplay : String
  reason : String
  deriving DecidableEq, Repr

/-- The displacement block of `engine_features_match`: both values present
compares `abs(local - remote) <= 0.2`; otherwise the source's
`elif not local and not api` treats `None` *and* `0.0` as absent (Python
falsiness) and matches vacuously, and only the remaining one-sided cases
fail as incomplete. -/
def displacementStage (l r : Option Rat) : DispVerdict :=
  match l, r with
  | some a, some b =>
    let e := abs (a - b)
    if e ≤ 2 / 10 then ⟨true, showTenths e ++ "L", ""⟩
    else
      ⟨false, showTenths e ++ "L",
       dispMismatchReason (dispDisplay (some a)) (dispDisplay (some b)) (showTenths e ++ "L")⟩
  | _, _ =>
    if !optQTruthy l && !optQTruthy r then ⟨true, "无", ""⟩
    else ⟨false, "无", dispIncompleteReason (dispDisplay l) (dispDisplay r)⟩

/-- `engine_features_match` from src/Vin_Decoder_QueryApi_Test.py.  The
fuel verdict triple is (proceed-to-displacement, fuel_type_match,
failure reason); the hybrid override and the two vacuous cases proceed. -/
def engine_features_match (local_engine api_engine : String) (raw : Option RawEngineData) :
    Bool × EngineMatchDetails :=
  if pyStrip local_engine == "" && pyStrip api_engine == "" then
    (true, ⟨true, true, "无", "无", "无", "无", "无", "双方发动机文本均为空"⟩)
  else
    let lf := extract_engine_features local_engine none
    let af := extract_engine_features api_engine raw
    let lfuel := fuelDisplay lf.fuel_type
    let afuel := fuelDisplay af.fuel_type
    let ldisp := dispDisplay lf.displacement
    let adisp := dispDisplay af.displacement
    let is_hybrid :=
      (lf.fuel_type == some "hybrid") || (af.fuel_type == some "hybrid")
        || containsSub "hybrid" (normalize_text (some local_engine))
        || containsSub "hybrid" (normalize_text (some api_engine))
    let fuelVerdict : Bool × Bool × String :=
      if is_hybrid then (true, true, hybridReason lfuel afuel)
      else if optStrTruthy lf.fuel_type && optStrTruthy af.fuel_type then
        if lf.fuel_type == af.fuel_type then (true, true, "")
        else (false, false, fuelMismatchReason lfuel afuel)
      else if !optStrTruthy lf.fuel_type && !optStrTruthy af.fuel_type then (true, true, "")
      else (false, false, fuelIncompleteReason lfuel afuel)
    if fuelVerdict.1 then
      let d := displacementStage lf.displacement af.displacement
      if d.ok then
        (true, ⟨fuelVerdict.2.1, true, lfuel, afuel, ldisp, adisp, d.errDisplay,
                successReason lfuel ldisp adisp⟩)
      else
        (false, ⟨fuelVerdict.2.1, false, lfuel, afuel, ldisp, adisp, d.errDisplay, d.reason⟩)
    else (false, ⟨fuelVerdict.2.1, false, lfuel, afuel, ldisp, adisp, "无", fuelVerdict.2.2⟩)

/-- A reference record from the local dataset (the loader guarantees the
five comparable fields are present; missing values were replaced by ""). -/
structure LocalRecord where
  make : String
  year : String
  model : String
  engine : String
  transmission : String
  deriving DecidableEq, Repr

/-- A comparison source for `compare_with_source`: an API-mapped record or
a hard-decode record.  A `none` field models a key absent from the source
dictionary (the hard-decode source has only Manufacturer/Make and Year). -/
structure SourceRecord where
  make : Option String
  year : Option String
  model : Option String
  engine : Option String
  transmission : Option String
  raw_engine_data : Option RawEngineData
  deriving DecidableEq, Repr

def containEitherWay (a b : String) : Bool :=
  containsSub a b || containsSub b a

/-- Manufacturer/Make rule: mutual substring containment of normalized
values. -/
def makeFieldMatch (lv sv : String) : Bool :=
  containEitherWay (normalize_text (some lv)) (normalize_text (some sv))

/-- Year rule: exact equality of stripped raw values. -/
def yearFieldMatch (lv sv : String) : Bool :=
  pyStrip lv == pyStrip sv

/-- Model rule: mutual substring containment of normalized values. -/
def modelFieldMatch (lv sv : String) : Bool :=
  containEitherWay (normalize_text (some lv)) (normalize_text (some sv))

/-- Transmission rule: cvt/automatic cross-match in either direction, or
both contain "manual", or mutual containment. -/
def transmissionFieldMatch (lv sv : String) : Bool :=
  let sl := normalize_text (some lv)
  let ss := normalize_text (some sv)
  (containsSub "cvt" sl && containsSub "automatic" ss)
    || (containsSub "cvt" ss && containsSub "automatic" sl)
    || (containsSub "manual" sl && containsSub "manual" ss)
    || containsSub sl ss || containsSub ss sl

def b2n (b : Bool) : Nat := if b then 1 else 0

/-- The aggregate verdict of `compare_with_source` (the presentation-only
entries of the result dictionary — raw values, standardized strings,
detail text — are omitted; the per-field match booleans, the rounded
match rate, the overall flag, and the engine analysis are modelled). -/
structure CompareResult where
  matched : Bool
  match_rate : Rat
  fieldMake : Bool
  fieldYear : Bool
  fieldModel : Bool
  fieldEngine : Bool
  fieldTransmission : Bool
  engineAnalysis : Option EngineMatchDetails
  deriving DecidableEq, Repr

/-- `compare_with_source` from src/Vin_Decoder_QueryApi_Test.py: a field
absent from the source dictionary counts as matched; `raw_engine_data`
(default `{}`) is passed to the engine matcher only for the API source;
`match_rate = round(match_count / 5 * 100, 2)` and
`match = (match_count >= 4) and fields["Engine"]["match"]`. -/
def compare_with_source (loc : LocalRecord) (source : SourceRecord) (isApi : Bool) :
    CompareResult :=
  let mMake :=
    match source.make with
    | none => true
    | some sv => makeFieldMatch loc.make sv
  let mYear :=
    match source.year with
    | none => true
    | some sv => yearFieldMatch loc.year sv
  let mModel :=
    match source.model with
    | none => true
    | some sv => modelFieldMatch loc.model sv
  let er : Option (Bool × EngineMatchDetails) :=
    match source.engine with
    | none => none
    | some sv =>
      some (engine_features_match loc.engine sv
        (if isApi then some (source.raw_engine_data.getD ⟨none, none, none⟩) else none))
  let mEngine :=
    match er with
    | none => true
    | some r => r.1
  let mTrans :=
    match source.transmission with
    | none => true
    | some sv => transmissionFieldMatch loc.transmission sv
  let count := b2n mMake + b2n mYear + b2n mModel + b2n mEngine + b2n mTrans
  ⟨decide (4 ≤ count) && mEngine, pyRound2 ((count : Rat) / 5 * 100),
   mMake, mYear, mModel, mEngine, mTrans, er.map (fun r => r.2)⟩

/-- Number of matched fields among the five comparable fields of a
comparison result. -/
def countMatched (r : CompareResult) : Nat :=
  b2n r.fieldMake + b2n r.fieldYear + b2n r.fieldModel
    + b2n r.fieldEngine + b2n r.fieldTransmission

/- ------------------------------------------------------------------ -/
/- Proof-support predicates                                            -/
/- ------------------------------------------------------------------ -/

/-- No two adjacent whitespace characters. -/
def noAdjSpace : List Char → Bool
  | [] => true
  | [_] => true
  | a :: b :: rest => (!(isSpaceChar a && isSpaceChar b)) && noAdjSpace (b :: rest)

/-- Every whitespace character is a plain space. -/
def allBlankSpaces (l : List Char) : Prop :=
  ∀ c ∈ l, isSpaceChar c = true → c = ' '

/-- Every character is in the kept class of `normalize_text`. -/
def allKeep (l : List Char) : Prop :=
  ∀ c ∈ l, keepChar c = true

/- ------------------------------------------------------------------ -/
/- Helper lemmas                                                       -/
/- ------------------------------------------------------------------ -/

theorem lowerPairs_keep : ∀ p ∈ lowerPairs, keepChar p.1 = true ∧ keepChar p.2 = true := by
  decide

theorem lowerPairs_space : ∀ p ∈ lowerPairs,
    isSpaceChar p.1 = false ∧ isSpaceChar p.2 = false := by
  decide

theorem lowerPairs_fix : ∀ p ∈ lowerPairs,
    lowerPairs.find? (fun q => q.1 == p.2) = none := by
  decide

theorem pyLowerChar_keep (c : Char) (h : keepChar c = true) :
    keepChar (pyLowerChar c) = true := by
  unfold pyLowerChar
  cases hf : lowerPairs.find? (fun p => p.1 == c) with
  | none => simpa using h
  | some p => simpa using (lowerPairs_keep p (List.mem_of_find?_eq_some hf)).2

theorem pyLowerChar_space (c : Char) : isSpaceChar (pyLowerChar c) = isSpaceChar c := by
  unfold pyLowerChar
  cases hf : lowerPairs.find? (fun p => p.1 == c) with
  | none => simp
  | some p =>
    have hm := List.mem_of_find?_eq_some hf
    have hc : p.1 = c := by simpa using List.find?_some hf
    simp [← hc, (lowerPairs_space p hm).1, (lowerPairs_space p hm).2]

theorem pyLowerChar_idem (c : Char) : pyLowerChar (pyLowerChar c) = pyLowerChar c := by
  cases hf : lowerPairs.find? (fun p => p.1 == c) with
  | none =>
    have h1 : pyLowerChar c = c := by unfold pyLowerChar; rw [hf]; rfl
    rw [h1, h1]
  | some p =>
    have h1 : pyLowerChar c = p.2 := by unfold pyLowerChar; rw [hf]; rfl
    have h2 : lowerPairs.find? (fun q => q.1 == p.2) = none :=
      lowerPairs_fix p (List.mem_of_find?_eq_some hf)
    rw [h1]
    unfold pyLowerChar
    rw [h2]
    rfl

theorem noAdjSpace_tail (x : Char) (xs : List Char) (h : noAdjSpace (x :: xs) = true) :
    noAdjSpace xs = true := by
  cases xs with
  | nil => rfl
  | cons y t =>
    simp only [noAdjSpace, Bool.and_eq_true] at h
    exact h.2

theorem noAdjSpace_head (x : Char) (xs : List Char) (h : noAdjSpace (x :: xs) = true)
    (hx : isSpaceChar x = true) : ∀ d, xs.head? = some d → isSpaceChar d = false := by
  cases xs with
  | nil => intro d hd; cases hd
  | cons y t =>
    intro d hd
    simp only [noAdjSpace, Bool.and_eq_true] at h
    simp only [List.head?_cons, Option.some.injEq] at hd
    subst hd
    have h1 := h.1
    simp only [hx, Bool.true_and, Bool.not_eq_true'] at h1
    exact h1

theorem noAdjSpace_cons_of (x : Char) (xs : List Char) (hxs : noAdjSpace xs = true)
    (hhead : ∀ d, xs.head? = some d → (isSpaceChar x && isSpaceChar d) = false) :
    noAdjSpace (x :: xs) = true := by
  cases xs with
  | nil => rfl
  | cons y t =>
    simp only [noAdjSpace, Bool.and_eq_true, Bool.not_eq_true']
    exact ⟨hhead y rfl, hxs⟩

theorem noAdjSpace_append_right (xs ys : List Char)
    (h : noAdjSpace (xs ++ ys) = true) : noAdjSpace ys = true := by
  induction xs with
  | nil => exact h
  | cons x t ih => exact ih (noAdjSpace_tail x (t ++ ys) h)

theorem noAdjSpace_append_left (xs ys : List Char)
    (h : noAdjSpace (xs ++ ys) = true) : noAdjSpace xs = true := by
  induction xs with
  | nil => rfl
  | cons x t ih =>
    apply noAdjSpace_cons_of x t (ih (noAdjSpace_tail x (t ++ ys) h))
    intro d hd
    cases t with
    | nil => cases hd
    | cons y tt =>
      simp only [List.head?_cons, Option.some.injEq] at hd
      subst hd
      simp only [List.cons_append, noAdjSpace, Bool.and_eq_true] at h
      have h1 := h.1
      simp only [Bool.not_eq_true'] at h1
      exact h1

theorem collapseWSAux_head_of_true (l : List Char) :
    ∀ c, (collapseWSAux true l).head? = some c → isSpaceChar c = false := by
  induction l with
  | nil => intro c hc; cases hc
  | cons x rest ih =>
    intro c hc
    by_cases hx : isSpaceChar x = true
    · simp only [collapseWSAux, hx, if_true] at hc
      exact ih c hc
    · simp only [collapseWSAux, hx] at hc
      simp only [Bool.not_eq_true] at hx
      simp only [hx, Bool.false_eq_true, if_false, List.head?_cons, Option.some.injEq] at hc
      subst hc
      exact hx

theorem collapseWSAux_mem (l : List Char) :
    ∀ b, ∀ c ∈ collapseWSAux b l, c = ' ' ∨ (c ∈ l ∧ isSpaceChar c = false) := by
  induction l with
  | nil => intro b c hc; cases hc
  | cons x rest ih =>
    intro b c hc
    by_cases hx : isSpaceChar x = true
    · cases b with
      | true =>
        simp only [collapseWSAux, hx, if_true] at hc
        rcases ih true c hc with h | h
        · exact Or.inl h
        · exact Or.inr ⟨List.mem_cons_of_mem x h.1, h.2⟩
      | false =>
        simp only [collapseWSAux, hx, if_true, Bool.false_eq_true, if_false,
          List.mem_cons] at hc
        rcases hc with h | h
        · exact Or.inl h
        · rcases ih true c h with h2 | h2
          · exact Or.inl h2
          · exact Or.inr ⟨List.mem_cons_of_mem x h2.1, h2.2⟩
    · simp only [collapseWSAux, hx, Bool.false_eq_true, if_false, List.mem_cons] at hc
      simp only [Bool.not_eq_true] at hx
      rcases hc with h | h
      · subst h; exact Or.inr ⟨List.mem_cons_self c rest, hx⟩
      · rcases ih false c h with h2 | h2
        · exact Or.inl h2
        · exact Or.inr ⟨List.mem_cons_of_mem x h2.1, h2.2⟩

theorem collapseWSAux_noAdj (l : List Char) : ∀ b, noAdjSpace (collapseWSAux b l) = true := by
  induction l with
  | nil => intro b; rfl
  | cons x rest ih =>
    intro b
    by_cases hx : isSpaceChar x = true
    · cases b with
      | true => simpa [collapseWSAux, hx] using ih true
      | false =>
        simp only [collapseWSAux, hx, if_true, Bool.false_eq_true, if_false]
        apply noAdjSpace_cons_of ' ' _ (ih true)
        intro d hd
        have := collapseWSAux_head_of_true rest d hd
        simp [this]
    · simp only [collapseWSAux, hx, Bool.false_eq_true, if_false]
      apply noAdjSpace_cons_of x _ (ih false)
      intro d hd
      simp only [Bool.not_eq_true] at hx
      simp [hx]

theorem collapseWSAux_id (l : List Char) :
    ∀ b, allBlankSpaces l → noAdjSpace l = true →
      (b = true → ∀ c, l.head? = some c → isSpaceChar c = false) →
      collapseWSAux b l = l := by
  induction l with
  | nil => intro b _ _ _; rfl
  | cons x rest ih =>
    intro b hblank hadj hb
    by_cases hx : isSpaceChar x = true
    · have hx' : x = ' ' := hblank x (List.mem_cons_self x rest) hx
      have hbf : b = false := by
        cases b with
        | false => rfl
        | true => exact absurd hx (by simp [hb rfl x rfl])
      subst hbf
      have hrest : collapseWSAux true rest = rest := by
        apply ih true
        · intro c hc hsc; exact hblank c (List.mem_cons_of_mem x hc) hsc
        · exact noAdjSpace_tail x rest hadj
        · intro _ c hc; exact noAdjSpace_head x rest hadj hx c hc
      show collapseWSAux false (x :: rest) = x :: rest
      simp only [collapseWSAux, hx, if_true]
      rw [hrest, hx']
      simp
    · have hrest : collapseWSAux false rest = rest := by
        apply ih false
        · intro c hc hsc; exact hblank c (List.mem_cons_of_mem x hc) hsc
        · exact noAdjSpace_tail x rest hadj
        · intro h; cases h
      simp [collapseWSAux, hx, hrest]

theorem dropWhileWS_head (l : List Char) :
    ∀ c, (l.dropWhile isSpaceChar).head? = some c → isSpaceChar c = false := by
  induction l with
  | nil => intro c hc; cases hc
  | cons x rest ih =>
    intro c hc
    by_cases hx : isSpaceChar x = true
    · rw [List.dropWhile_cons_of_pos hx] at hc
      exact ih c hc
    · simp only [Bool.not_eq_true] at hx
      rw [List.dropWhile_cons_of_neg (by simp [hx])] at hc
      simp only [List.head?_cons, Option.some.injEq] at hc
      subst hc
      exact hx

theorem dropWhileWS_mem (l : List Char) (c : Char) (h : c ∈ l.dropWhile isSpaceChar) :
    c ∈ l := by
  induction l with
  | nil => exact h
  | cons x rest ih =>
    by_cases hx : isSpaceChar x = true
    · rw [List.dropWhile_cons_of_pos hx] at h
      exact List.mem_cons_of_mem x (ih h)
    · rw [List.dropWhile_cons_of_neg hx] at h
      exact h

theorem dropWhileWS_append_ex (l : List Char) :
    ∃ t, l = t ++ l.dropWhile isSpaceChar := by
  induction l with
  | nil => exact ⟨[], rfl⟩
  | cons x rest ih =>
    by_cases hx : isSpaceChar x = true
    · obtain ⟨t, ht⟩ := ih
      exact ⟨x :: t, by rw [List.dropWhile_cons_of_pos hx]; simpa using ht⟩
    · refine ⟨[], ?_⟩
      rw [List.dropWhile_cons_of_neg hx]
      rfl

theorem dropWhileWS_eq_self (l : List Char)
    (h : ∀ c, l.head? = some c → isSpaceChar c = false) :
    l.dropWhile isSpaceChar = l := by
  cases l with
  | nil => rfl
  | cons x rest => rw [List.dropWhile_cons_of_neg (by simp [h x rfl])]

theorem lastCharD_cons₂ (a b : Char) (t : List Char) :
    lastCharD (a :: b :: t) = lastCharD (b :: t) := rfl

theorem dropTrailingWS_mem (l : List Char) (c : Char) (h : c ∈ dropTrailingWS l) : c ∈ l := by
  induction l with
  | nil => exact h
  | cons x rest ih =>
    simp only [dropTrailingWS] at h
    split at h
    · cases h
    · rcases List.mem_cons.mp h with h1 | h1
      · exact h1 ▸ List.mem_cons_self x rest
      · exact List.mem_cons_of_mem x (ih h1)

theorem dropTrailingWS_last (l : List Char) :
    ∀ c, lastCharD (dropTrailingWS l) = some c → isSpaceChar c = false := by
  induction l with
  | nil => intro c hc; cases hc
  | cons x rest ih =>
    intro c hc
    simp only [dropTrailingWS] at hc
    split at hc
    · cases hc
    · rename_i hcond
      cases hr : dropTrailingWS rest with
      | nil =>
        rw [hr] at hc hcond
        simp only [List.isEmpty_nil, Bool.true_and, Bool.not_eq_true] at hcond
        cases hc
        exact hcond
      | cons y t =>
        rw [hr] at hc
        rw [lastCharD_cons₂] at hc
        exact ih c (hr ▸ hc)

theorem dropTrailingWS_head (l : List Char) (c : Char)
    (h : (dropTrailingWS l).head? = some c) : l.head? = some c := by
  cases l with
  | nil => cases h
  | cons x rest =>
    simp only [dropTrailingWS] at h
    split at h
    · cases h
    · simpa using h

theorem dropTrailingWS_append_ex (l : List Char) :
    ∃ t, l = dropTrailingWS l ++ t := by
  induction l with
  | nil => exact ⟨[], rfl⟩
  | cons x rest ih =>
    simp only [dropTrailingWS]
    split
    · exact ⟨x :: rest, rfl⟩
    · obtain ⟨t, ht⟩ := ih
      exact ⟨t, by simpa using ht⟩

theorem dropTrailingWS_id (l : List Char)
    (h : ∀ c, lastCharD l = some c → isSpaceChar c = false) : dropTrailingWS l = l := by
  induction l with
  | nil => rfl
  | cons x rest ih =>
    cases rest with
    | nil =>
      have hx := h x rfl
      simp [dropTrailingWS, hx]
    | cons y t =>
      have hr : dropTrailingWS (y :: t) = y :: t := by
        apply ih
        intro c hc
        exact h c ((lastCharD_cons₂ x y t) ▸ hc)
      show (if (dropTrailingWS (y :: t)).isEmpty && isSpaceChar x then []
            else x :: dropTrailingWS (y :: t)) = x :: y :: t
      rw [hr]
      simp

theorem stripWS_head (l : List Char) :
    ∀ c, (stripWS l).head? = some c → isSpaceChar c = false := by
  intro c hc
  exact dropWhileWS_head l c (dropTrailingWS_head _ c hc)

theorem stripWS_last (l : List Char) :
    ∀ c, lastCharD (stripWS l) = some c → isSpaceChar c = false :=
  fun c hc => dropTrailingWS_last _ c hc

theorem stripWS_mem (l : List Char) (c : Char) (h : c ∈ stripWS l) : c ∈ l :=
  dropWhileWS_mem l c (dropTrailingWS_mem _ c h)

theorem stripWS_noAdj (l : List Char) (h : noAdjSpace l = true) :
    noAdjSpace (stripWS l) = true := by
  obtain ⟨t1, ht1⟩ := dropWhileWS_append_ex l
  have h1 : noAdjSpace (l.dropWhile isSpaceChar) = true :=
    noAdjSpace_append_right t1 _ (ht1 ▸ h)
  obtain ⟨t2, ht2⟩ := dropTrailingWS_append_ex (l.dropWhile isSpaceChar)
  exact noAdjSpace_append_left _ t2 (ht2 ▸ h1)

theorem stripWS_id (l : List Char)
    (hh : ∀ c, l.head? = some c → isSpaceChar c = false)
    (hl : ∀ c, lastCharD l = some c → isSpaceChar c = false) : stripWS l = l := by
  unfold stripWS
  rw [dropWhileWS_eq_self l hh]
  exact dropTrailingWS_id l hl

theorem collapseWS_id (l : List Char) (h1 : allBlankSpaces l) (h2 : noAdjSpace l = true) :
    collapseWS l = l :=
  collapseWSAux_id l false h1 h2 (fun h => nomatch h)

theorem map_pyLower_noAdj (l : List Char) (h : noAdjSpace l = true) :
    noAdjSpace (l.map pyLowerChar) = true := by
  induction l with
  | nil => rfl
  | cons x rest ih =>
    cases rest with
    | nil => rfl
    | cons y t =>
      simp only [noAdjSpace, Bool.and_eq_true] at h
      simp only [List.map_cons, noAdjSpace, Bool.and_eq_true]
      refine ⟨?_, ?_⟩
      · simpa [pyLowerChar_space] using h.1
      · simpa using ih h.2

theorem lastCharD_map (f : Char → Char) (l : List Char) :
    ∀ c, lastCharD (l.map f) = some c → ∃ d, lastCharD l = some d ∧ c = f d := by
  induction l with
  | nil => intro c hc; cases hc
  | cons x rest ih =>
    intro c hc
    cases rest with
    | nil =>
      simp only [List.map_cons, List.map_nil] at hc
      cases hc
      exact ⟨x, rfl, rfl⟩
    | cons y t =>
      simp only [List.map_cons] at hc
      rw [lastCharD_cons₂] at hc
      obtain ⟨d, hd, hcd⟩ := ih c (by simpa using hc)
      exact ⟨d, (lastCharD_cons₂ x y t) ▸ hd, hcd⟩

theorem headQ_map (f : Char → Char) (l : List Char) (c : Char)
    (h : (l.map f).head? = some c) : ∃ d, l.head? = some d ∧ c = f d := by
  cases l with
  | nil => cases h
  | cons x rest =>
    simp only [List.map_cons, List.head?_cons, Option.some.injEq] at h
    exact ⟨x, rfl, h.symm⟩

theorem map_pyLower_idem (l : List Char) :
    (l.map pyLowerChar).map pyLowerChar = l.map pyLowerChar := by
  induction l with
  | nil => rfl
  | cons x rest ih => simp only [List.map_cons, pyLowerChar_idem, ih]

theorem filter_keep_eq_self (l : List Char) (h : ∀ c ∈ l, keepChar c = true) :
    l.filter keepChar = l := by
  induction l with
  | nil => rfl
  | cons x rest ih =>
    rw [List.filter_cons_of_pos (h x (List.mem_cons_self x rest))]
    rw [ih (fun c hc => h c (List.mem_cons_of_mem x hc))]

/-- C9: the text normalizer is deterministic and total (it is a Lean
function into `String`, so it never fails and never returns null), it is
idempotent — `normalize_text (some (normalize_text x)) = normalize_text x`
for every input — and a null/absent input yields the empty string. -/
theorem c9_normalize_idempotent_total :
    (∀ x : Option String, normalize_text (some (normalize_text x)) = normalize_text x) ∧
    normalize_text none = "" := by
  constructor
  · intro x
    have key : ∀ s : String,
        normalize_text (some (normalize_text (some s))) = normalize_text (some s) := by
      intro s
      have hkeep_w : ∀ c ∈ stripWS (collapseWS (s.data.filter keepChar)), keepChar c = true := by
        intro c hc
        have hc1 : c ∈ collapseWS (s.data.filter keepChar) := stripWS_mem _ c hc
        rcases collapseWSAux_mem _ false c hc1 with h | h
        · subst h; decide
        · simpa using (List.mem_filter.mp h.1).2
      have hblank_w : allBlankSpaces (stripWS (collapseWS (s.data.filter keepChar))) := by
        intro c hc hsc
        have hc1 : c ∈ collapseWS (s.data.filter keepChar) := stripWS_mem _ c hc
        rcases collapseWSAux_mem _ false c hc1 with h | h
        · exact h
        · rw [h.2] at hsc; cases hsc
      have hnoadj_w : noAdjSpace (stripWS (collapseWS (s.data.filter keepChar))) = true :=
        stripWS_noAdj _ (collapseWSAux_noAdj _ false)
      have hhead_w := stripWS_head (collapseWS (s.data.filter keepChar))
      have hlast_w := stripWS_last (collapseWS (s.data.filter keepChar))
      have hkeep_y : ∀ c ∈ (stripWS (collapseWS (s.data.filter keepChar))).map pyLowerChar,
          keepChar c = true := by
        intro c hc
        obtain ⟨d, hd, rfl⟩ := List.mem_map.mp hc
        exact pyLowerChar_keep d (hkeep_w d hd)
      have hblank_y : allBlankSpaces
          ((stripWS (collapseWS (s.data.filter keepChar))).map pyLowerChar) := by
        intro c hc hsc
        obtain ⟨d, hd, rfl⟩ := List.mem_map.mp hc
        rw [pyLowerChar_space] at hsc
        rw [hblank_w d hd hsc]
        decide
      have hnoadj_y : noAdjSpace
          ((stripWS (collapseWS (s.data.filter keepChar))).map pyLowerChar) = true :=
        map_pyLower_noAdj _ hnoadj_w
      have hhead_y : ∀ c,
          ((stripWS (collapseWS (s.data.filter keepChar))).map pyLowerChar).head? = some c →
          isSpaceChar c = false := by
        intro c hc
        obtain ⟨d, hd, rfl⟩ := headQ_map pyLowerChar _ c hc
        rw [pyLowerChar_space]
        exact hhead_w d hd
      have hlast_y : ∀ c,
          lastCharD ((stripWS (collapseWS (s.data.filter keepChar))).map pyLowerChar) = some c →
          isSpaceChar c = false := by
        intro c hc
        obtain ⟨d, hd, rfl⟩ := lastCharD_map pyLowerChar _ c hc
        rw [pyLowerChar_space]
        exact hlast_w d hd
      show String.mk
          ((stripWS (collapseWS
            (((stripWS (collapseWS (s.data.filter keepChar))).map pyLowerChar).filter
              keepChar))).map pyLowerChar) =
        String.mk ((stripWS (collapseWS (s.data.filter keepChar))).map pyLowerChar)
      rw [filter_keep_eq_self _ hkeep_y, collapseWS_id _ hblank_y hnoadj_y,
        stripWS_id _ hhead_y hlast_y, map_pyLower_idem]
    cases x with
    | none => rfl
    | some s => exact key s
  · rfl

/-- C7: every string whose length is not 17 fails validation with the
length-specific reason, and every 17-character string containing a
character that uppercases to I, O or Q (so i/o/q in either case) fails
with the message naming such a character. -/
theorem c7_validate_rejects (s : String) :
    (s.length ≠ 17 → validate_vin s = (false, lengthMsg)) ∧
    (s.length = 17 → ∀ c ∈ s.data, isIOQ c = true →
      (validate_vin s).1 = false ∧
      ∃ c2, c2 ∈ s.data ∧ isIOQ c2 = true ∧ (validate_vin s).2 = invalidCharMsg c2) := by
  constructor
  · intro h
    simp [validate_vin, h]
  · intro h17 c hc hioq
    have hne : ¬ s.length ≠ 17 := by simp [h17]
    cases hfind : s.data.find? isIOQ with
    | none =>
      exfalso
      have := List.find?_eq_none.mp hfind c hc
      simp [hioq] at this
    | some c2 =>
      have heq : validate_vin s = (false, invalidCharMsg c2) := by
        unfold validate_vin
        rw [if_neg hne, hfind]
      refine ⟨by simp [heq], c2, List.mem_of_find?_eq_some hfind, ?_, by simp [heq]⟩
      have := List.find?_some hfind
      simpa using this

/-- C7 witness: a short string is rejected for its length, and a
17-character string containing a lowercase i is rejected naming it. -/
theorem c7_validate_rejects_witness :
    validate_vin "AB" = (false, lengthMsg) ∧
    (validate_vin "AAAAAAAAAAAAAAAAi").1 = false := by
  refine ⟨(c7_validate_rejects "AB").1 (by decide), ?_⟩
  exact (((c7_validate_rejects "AAAAAAAAAAAAAAAAi").2 (by decide) 'i' (by decide)
    (by decide))).1

/-- C10: the validator accepts every 17-character string with no
I/O/Q character of either case, even when the string contains characters
outside the VIN alphabet (spaces, punctuation, lowercase letters) — only
the length and the I/O/Q exclusion are enforced. -/
theorem c10_validate_accepts (s : String) (h17 : s.length = 17)
    (hno : ∀ c ∈ s.data, isIOQ c = false) :
    validate_vin s = (true, validMsg) := by
  unfold validate_vin
  rw [if_neg (by simp [h17])]
  have hfind : s.data.find? isIOQ = none := by
    apply List.find?_eq_none.mpr
    intro x hx
    simp [hno x hx]
  rw [hfind]

/-- C10 witness: a 17-character string with spaces, punctuation and
lowercase letters (not a real VIN alphabet string) is accepted. -/
theorem c10_validate_accepts_witness :
    validate_vin "abc def!@# 12345%" = (true, validMsg) :=
  c10_validate_accepts "abc def!@# 12345%" (by decide) (by decide)

/-- C6 counterexample: the VIN "1FXAAAAAAKAAAAAAA" has a 2-character
prefix ("1F") that is a WMI table entry (Ford), and its 3-character prefix
("1FX") is not in the table; the claimed shorter-prefix fallback would
resolve it to Ford, but `hard_decode_vin` performs a single exact lookup
of the 3-character prefix and yields the unrecognized marker. -/
theorem c6_wmi_no_shorter_prefix_counterexample :
    String.mk (("1FXAAAAAAKAAAAAAA" : String).data.take 2) = "1F" ∧
    lookupStr wmi_mapping "1F" = some "Ford" ∧
    lookupStr wmi_mapping (pyUpper (String.mk (("1FXAAAAAAKAAAAAAA" : String).data.take 3))) =
      none ∧
    (hard_decode_vin "1FXAAAAAAKAAAAAAA").manufacturer = wmiUnrecognized := by
  refine ⟨rfl, rfl, by decide, by decide⟩

/-- C6 amended: structural manufacturer resolution performs a single exact
lookup of the uppercased 3-character prefix in the static WMI table; no
shorter prefix length is ever consulted, and a 3-character prefix that is
not a table entry yields the explicit "unrecognized" marker (the function
is total, so no exception is possible). -/
theorem c6_wmi_lookup_amended (vin : String) :
    (hard_decode_vin vin).manufacturer =
      (lookupStr wmi_mapping (pyUpper (String.mk (vin.data.take 3)))).getD wmiUnrecognized ∧
    (lookupStr wmi_mapping (pyUpper (String.mk (vin.data.take 3))) = none →
      (hard_decode_vin vin).manufacturer = wmiUnrecognized) := by
  refine ⟨rfl, ?_⟩
  intro h
  show (lookupStr wmi_mapping (pyUpper (String.mk (vin.data.take 3)))).getD wmiUnrecognized =
    wmiUnrecognized
  rw [h]
  rfl

/-- C6 witness: applied to a VIN whose 3-character prefix is not in the
table, the unrecognized marker results. -/
theorem c6_wmi_lookup_witness :
    (hard_decode_vin "7FAAAAAAAKAAAAAAA").manufacturer = wmiUnrecognized :=
  (c6_wmi_lookup_amended "7FAAAAAAAKAAAAAAA").2 (by decide)

/-- C8 counterexample: a raw transmission value matching none of the
CVT/Automatic/Manual/Standard substrings ("Tiptronic") is kept verbatim
in the canonical record, not replaced by the not-available marker: the
record's Transmission is "Tiptronic", which differs from "N/A". -/
theorem c8_transmission_counterexample :
    stdTransmission "Tiptronic" = "Tiptronic" ∧
    ("Tiptronic" : String) ≠ "N/A" ∧
    (decode_vin_simplified "1HGBH41JXMN109186"
        [ApiAttempt.ok [⟨"Make", some "HONDA"⟩, ⟨"Model Year", some "2021"⟩,
                        ⟨"Transmission Style", some "Tiptronic"⟩]]).vehicleInfo =
      some ⟨"1HGBH41JXMN109186", "Honda", "2021", "N/A",
            "Displacement: N/A; Fuel Type: N/A", "Tiptronic", "API"⟩ := by
  refine ⟨by decide, by decide, by decide⟩

/-- C8 amended: the raw transmission value is collapsed by prioritized
substring checks (CVT before Automatic before Manual/Standard) to CVT,
Automatic or Manual; a raw value matching none of the substrings is passed
through unchanged — so the not-available marker survives only when the raw
value already was the not-available marker. -/
theorem c8_transmission_amended (t : String) :
    (containsSub "CVT" t = true → stdTransmission t = "CVT") ∧
    (containsSub "CVT" t = false → containsSub "Automatic" t = true →
      stdTransmission t = "Automatic") ∧
    (containsSub "CVT" t = false → containsSub "Automatic" t = false →
      (containsSub "Manual" t || containsSub "Standard" t) = true →
      stdTransmission t = "Manual") ∧
    (containsSub "CVT" t = false → containsSub "Automatic" t = false →
      containsSub "Manual" t = false → containsSub "Standard" t = false →
      stdTransmission t = t) := by
  refine ⟨?_, ?_, ?_, ?_⟩ <;> intros <;> simp_all [stdTransmission]

/-- C8 witness: a value containing "CVT" collapses to "CVT". -/
theorem c8_transmission_witness : stdTransmission "CVT 8-speed" = "CVT" :=
  (c8_transmission_amended "CVT 8-speed").1 (by decide)

theorem processAttempts_take (vin : String) :
    ∀ (l : List ApiAttempt) (n : Nat), n ≤ 2 →
      processAttempts vin l n = processAttempts vin (l.take (3 - n)) n := by
  intro l
  induction l with
  | nil => intro n _; simp
  | cons a rest ih =>
    intro n hn
    have h3 : 3 - n = (2 - n) + 1 := by omega
    rw [h3, List.take_succ_cons]
    cases a with
    | timeout =>
      by_cases h2 : n < 2
      · have heq : 2 - n = 3 - (n + 1) := by omega
        simp only [processAttempts, h2, if_true]
        rw [heq]
        exact ih (n + 1) (by omega)
      · simp [processAttempts, h2]
    | httpError msg => simp [processAttempts]
    | exnOther msg => simp [processAttempts]
    | ok results =>
      by_cases hres : results.isEmpty = true
      · by_cases h2 : n < 2
        · have heq : 2 - n = 3 - (n + 1) := by omega
          simp only [processAttempts, hres, if_true, h2]
          rw [heq]
          exact ih (n + 1) (by omega)
        · simp [processAttempts, hres, h2]
      · simp [processAttempts, hres]

/-- C4 counterexample: with a first response whose `Results` is empty and
a second, valid response, the resolver retries after the empty result and
uses the second response — the record carries API data (provenance
"API + Hard Decode (Year Fallback)") instead of the structural-only
fallback that a terminal empty result would force.  An empty/absent
result set is therefore retried, contradicting the claim that it is
terminal and that timeout is the only retried failure class. -/
theorem c4_retry_policy_counterexample :
    (decode_vin_simplified "1HGBH41JXMN109186"
        [ApiAttempt.ok [], ApiAttempt.ok [⟨"Make", some "HONDA"⟩]]).vehicleInfo =
      some ⟨"1HGBH41JXMN109186", "Honda", "2021", "N/A",
            "Displacement: N/A; Fuel Type: N/A", "N/A",
            "API + Hard Decode (Year Fallback)"⟩ ∧
    ("API + Hard Decode (Year Fallback)" : String) ≠ "Hard Decode (API Unavailable)" := by
  refine ⟨by decide, by decide⟩

/-- C4 amended: in the retry loop of `decode_vin_simplified`, a timeout
AND an empty result set are both retried while fewer than 2 retries have
been used (so at most 3 attempts in total); an HTTP-level error response
and any other non-timeout exception are terminal and never retried; at
most the first 3 responses are ever consumed.  (The fixed inter-attempt
delay is a real-time effect outside the model.) -/
theorem c4_retry_policy_amended :
    (∀ (vin : String) (rest : List ApiAttempt) (n : Nat), n < 2 →
      processAttempts vin (ApiAttempt.timeout :: rest) n = processAttempts vin rest (n + 1)) ∧
    (∀ (vin : String) (rest : List ApiAttempt) (n : Nat), n < 2 →
      processAttempts vin (ApiAttempt.ok [] :: rest) n = processAttempts vin rest (n + 1)) ∧
    (∀ (vin : String) (rest : List ApiAttempt),
      processAttempts vin (ApiAttempt.timeout :: rest) 2 = LoopOutcome.failed timeoutErrMsg) ∧
    (∀ (vin : String) (rest : List ApiAttempt),
      processAttempts vin (ApiAttempt.ok [] :: rest) 2 = LoopOutcome.failed emptyErrMsg) ∧
    (∀ (vin msg : String) (rest : List ApiAttempt) (n : Nat),
      processAttempts vin (ApiAttempt.httpError msg :: rest) n =
        LoopOutcome.failed (httpErrMsg msg)) ∧
    (∀ (vin msg : String) (rest : List ApiAttempt) (n : Nat),
      processAttempts vin (ApiAttempt.exnOther msg :: rest) n =
        LoopOutcome.failed (otherErrMsg msg)) ∧
    (∀ (vin : String) (l : List ApiAttempt),
      processAttempts vin l 0 = processAttempts vin (l.take 3) 0) := by
  refine ⟨?_, ?_, ?_, ?_, ?_, ?_, ?_⟩
  · intro vin rest n hn; simp [processAttempts, hn]
  · intro vin rest n hn; simp [processAttempts, hn]
  · intro vin rest; simp [processAttempts]
  · intro vin rest; simp [processAttempts]
  · intro vin msg rest n; simp [processAttempts]
  · intro vin msg rest n; simp [processAttempts]
  · intro vin l; exact processAttempts_take vin l 0 (by omega)

/-- C4 witness: a timeout at attempt 0 is retried (the loop moves on to
the next response at attempt 1). -/
theorem c4_retry_policy_witness :
    processAttempts "1HGBH41JXMN109186" [ApiAttempt.timeout, ApiAttempt.httpError "boom"] 0 =
      processAttempts "1HGBH41JXMN109186" [ApiAttempt.httpError "boom"] 1 :=
  c4_retry_policy_amended.1 "1HGBH41JXMN109186" [ApiAttempt.httpError "boom"] 0 (by decide)

/-- C5: for every VIN passing validation, when the remote lookup totally
fails (the retry loop ends without API data — retries exhausted, HTTP
error, empty result, or other exception), the returned record is built
entirely from the structural decoder: Manufacturer and Year equal
`hard_decode_vin`'s outputs, the provenance is the structural-only tag
"Hard Decode (API Unavailable)", the success flag is true exactly when the
structural decoder's status is "success", and the record is populated
(`some`, never the empty record). -/
theorem c5_structural_fallback_record (vin : String) (rs : List ApiAttempt) (err : String)
    (hv : (validate_vin vin).1 = true)
    (hf : processAttempts vin rs 0 = LoopOutcome.failed err) :
    decode_vin_simplified vin rs =
      ⟨(hard_decode_vin vin).decode_status == "success",
       some ⟨pyUpper vin, (hard_decode_vin vin).manufacturer, (hard_decode_vin vin).year,
             "API parsing failed, no data", "API parsing failed, no data",
             "API parsing failed, no data", "Hard Decode (API Unavailable)"⟩,
       err⟩ := by
  unfold decode_vin_simplified
  rw [if_neg (by simp [hv]), hf]

/-- C5 witness: a valid VIN with three timeouts yields the structural-only
record for that VIN with success true (its WMI and year code resolve). -/
theorem c5_structural_fallback_witness :
    (validate_vin "1HGBH41JXMN109186").1 = true ∧
    processAttempts "1HGBH41JXMN109186"
        [ApiAttempt.timeout, ApiAttempt.timeout, ApiAttempt.timeout] 0 =
      LoopOutcome.failed timeoutErrMsg ∧
    decode_vin_simplified "1HGBH41JXMN109186"
        [ApiAttempt.timeout, ApiAttempt.timeout, ApiAttempt.timeout] =
      ⟨true, some ⟨"1HGBH41JXMN109186", "Honda", "2021", "API parsing failed, no data",
            "API parsing failed, no data", "API parsing failed, no data",
            "Hard Decode (API Unavailable)"⟩, timeoutErrMsg⟩ := by
  refine ⟨by decide, by decide, ?_⟩
  rw [c5_structural_fallback_record "1HGBH41JXMN109186"
    [ApiAttempt.timeout, ApiAttempt.timeout, ApiAttempt.timeout] timeoutErrMsg
    (by decide) (by decide)]
  decide

theorem bankersRound_intCast (m : Int) : bankersRound ((m : Rat)) = m := by
  have hf : Rat.floor ((m : Rat)) = m := by
    rw [Rat.floor_def']
    simp
  simp only [bankersRound, hf]
  norm_num

theorem pyRound2_mul20 (k : Int) : pyRound2 ((k : Rat) * 20) = (k : Rat) * 20 := by
  unfold pyRound2
  have h : ((k : Rat) * 20) * 100 = ((k * 2000 : Int) : Rat) := by push_cast; ring
  rw [h, bankersRound_intCast]
  push_cast
  ring

theorem c1_rate (n : Nat) : pyRound2 ((n : Rat) / 5 * 100) = (n : Rat) / 5 * 100 := by
  have h : (n : Rat) / 5 * 100 = ((n : Int) : Rat) * 20 := by push_cast; ring
  rw [h, pyRound2_mul20]

theorem c1_overall_aux (n : Nat) (b : Bool) :
    (decide (4 ≤ n) && b) = true ↔ (4 ≤ n ∧ b = true) := by
  simp

/-- C1: for every comparison over the five comparable fields, the
aggregate verdict satisfies `match_rate = matched_field_count / 5 * 100`
(the source's rounding to 2 decimals is the identity on these multiples of
20), and `overall_match` is true if and only if the matched field count is
at least 4 and the Engine field matched — so four of five matched fields
with Engine unmatched yields overall false. -/
theorem c1_comparator_aggregate_verdict (loc : LocalRecord) (source : SourceRecord)
    (isApi : Bool) :
    (compare_with_source loc source isApi).match_rate =
      ((countMatched (compare_with_source loc source isApi) : Nat) : Rat) / 5 * 100 ∧
    ((compare_with_source loc source isApi).matched = true ↔
      (4 ≤ countMatched (compare_with_source loc source isApi) ∧
        (compare_with_source loc source isApi).fieldEngine = true)) :=
  ⟨c1_rate _, c1_overall_aux _ _⟩

/-- C2: whenever either side's classified fuel category is hybrid, or the
normalized raw engine text of either side contains the substring "hybrid",
the engine matcher reports the fuel-type comparison as matched, regardless
of the two classified categories. -/
theorem c2_hybrid_override_forces_fuel_match (le ae : String) (raw : Option RawEngineData)
    (h : (extract_engine_features le none).fuel_type = some "hybrid" ∨
         (extract_engine_features ae raw).fuel_type = some "hybrid" ∨
         containsSub "hybrid" (normalize_text (some le)) = true ∨
         containsSub "hybrid" (normalize_text (some ae)) = true) :
    (engine_features_match le ae raw).2.fuel_type_match = true := by
  have hhyb : (((extract_engine_features le none).fuel_type == some "hybrid")
      || ((extract_engine_features ae raw).fuel_type == some "hybrid")
      || containsSub "hybrid" (normalize_text (some le))
      || containsSub "hybrid" (normalize_text (some ae))) = true := by
    rcases h with h | h | h | h <;> simp [h]
  unfold engine_features_match
  split
  · rfl
  · simp only [hhyb, if_true]
    split <;> rfl

/-- C2 witness: the claim's example — local engine text "2.0L Hybrid"
whose normalized form contains "hybrid", against a remote side whose raw
classified fuel is "Electric" — yields fuel_type_match = true despite the
category mismatch. -/
theorem c2_hybrid_override_witness :
    (engine_features_match "2.0L Hybrid" "" (some ⟨none, none, some "Electric"⟩)).2.fuel_type_match
      = true :=
  c2_hybrid_override_forces_fuel_match "2.0L Hybrid" "" (some ⟨none, none, some "Electric"⟩)
    (Or.inr (Or.inr (Or.inl (by decide))))

theorem pyRound1_intCast (m : Int) : pyRound1 ((m : Rat)) = (m : Rat) := by
  unfold pyRound1
  have h : ((m : Rat)) * 10 = ((m * 10 : Int) : Rat) := by push_cast; ring
  rw [h, bankersRound_intCast]
  push_cast
  ring

theorem displacementStage_zero_none : displacementStage (some 0) none = ⟨true, "无", ""⟩ := by
  show (if !optQTruthy (some 0) && !optQTruthy none then (⟨true, "无", ""⟩ : DispVerdict)
        else ⟨false, "无", dispIncompleteReason (dispDisplay (some 0)) (dispDisplay none)⟩) =
      ⟨true, "无", ""⟩
  simp [optQTruthy]

/-- C3 counterexample: for local engine text "0.0l hybrid" the extracted
displacement is 0.0 and the remote text "hybrid" has none — exactly one
side has a value — yet the matcher treats the pair as both-absent (Python
falsiness of 0.0) and reports displacement matched and an overall match,
instead of failing with the "incomplete" reason. -/
theorem c3_displacement_one_sided_zero_counterexample :
    (extract_engine_features "0.0l hybrid" none).displacement = some 0 ∧
    (extract_engine_features "hybrid" none).displacement = none ∧
    (engine_features_match "0.0l hybrid" "hybrid" none).1 = true ∧
    (engine_features_match "0.0l hybrid" "hybrid" none).2.displacement_match = true := by
  have hnorm : normalize_text (some "0.0l hybrid") = "0.0l hybrid" := by decide
  have hparse : parseDecimalQ "0.0" = 0 := by
    show ((digitsToNat ['0'] : Rat)
        + (digitsToNat ['0'] : Rat) / (10 : Rat) ^ (['0'] : List Char).length) = 0
    norm_num [digitsToNat]
  have hr0 : pyRound1 0 = 0 := by simpa using pyRound1_intCast 0
  have hdispL : (extract_engine_features "0.0l hybrid" none).displacement = some 0 := by
    show extractDisplacementFromText (normalize_text (some "0.0l hybrid")) = some 0
    rw [hnorm]
    show some (pyRound1 (parseDecimalQ "0.0")) = some 0
    rw [hparse, hr0]
  have hdispH : (extract_engine_features "hybrid" none).displacement = none := by decide
  have hmatch : engine_features_match "0.0l hybrid" "hybrid" none =
      (true, ⟨true, true, "hybrid", "hybrid", dispDisplay (some 0), "无", "无",
              successReason "hybrid" (dispDisplay (some 0)) "无"⟩) := by
    unfold engine_features_match
    rw [if_neg (by decide)]
    simp only [hdispL, hdispH]
    rw [show ((extract_engine_features "0.0l hybrid" none).fuel_type == some "hybrid") = true
          by decide]
    simp only [Bool.true_or, if_true, displacementStage_zero_none]
    rw [show (extract_engine_features "0.0l hybrid" none).fuel_type = some "hybrid" by decide,
      show (extract_engine_features "hybrid" none).fuel_type = some "hybrid" by decide]
    rfl
  refine ⟨hdispL, hdispH, ?_, ?_⟩
  · rw [hmatch]
  · rw [hmatch]

/-- C3 amended: in the displacement comparison of the engine matcher, when
both sides have a value the comparison matches iff
`abs(local - remote) <= 0.2`; when exactly one side has a value the
comparison fails with the "incomplete" reason **unless** the present value
equals 0.0, in which case the falsy check treats it as absent on both
sides and the comparison matches vacuously; when both sides lack a value
it matches vacuously. -/
theorem c3_displacement_comparison_amended (l r : Option Rat) :
    (∀ a b, l = some a → r = some b →
      ((displacementStage l r).ok = true ↔ abs (a - b) ≤ 2 / 10)) ∧
    (∀ a, a ≠ 0 → l = some a → r = none →
      (displacementStage l r).ok = false ∧
      (displacementStage l r).reason = dispIncompleteReason (dispDisplay l) (dispDisplay r)) ∧
    (∀ b, b ≠ 0 → l = none → r = some b →
      (displacementStage l r).ok = false ∧
      (displacementStage l r).reason = dispIncompleteReason (dispDisplay l) (dispDisplay r)) ∧
    (l = some 0 → r = none → (displacementStage l r).ok = true) ∧
    (l = none → r = some 0 → (displacementStage l r).ok = true) ∧
    (l = none → r = none → (displacementStage l r).ok = true) := by
  refine ⟨?_, ?_, ?_, ?_, ?_, ?_⟩
  · intro a b ha hb
    subst ha; subst hb
    by_cases h : abs (a - b) ≤ 2 / 10 <;> simp [displacementStage, h]
  · intro a ha hl hr
    subst hl; subst hr
    simp [displacementStage, optQTruthy, ha]
  · intro b hb hl hr
    subst hl; subst hr
    simp [displacementStage, optQTruthy, hb]
  · intro hl hr
    subst hl; subst hr
    simp [displacementStage, optQTruthy]
  · intro hl hr
    subst hl; subst hr
    simp [displacementStage, optQTruthy]
  · intro hl hr
    subst hl; subst hr
    simp [displacementStage, optQTruthy]

/-- C3 witness: a present nonzero local value (1.0) against an absent
remote value fails as incomplete. -/
theorem c3_displacement_comparison_witness :
    (displacementStage (some 1) none).ok = false ∧
    (displacementStage (some 1) none).reason =
      dispIncompleteReason (dispDisplay (some 1)) (dispDisplay none) :=
  (c3_displacement_comparison_amended (some 1) none).2.1 1 (by norm_num) rfl rfl
